import Mathlib

set_option maxRecDepth 40000

/-!
Shallow embedding of the rule-driven simulation core of the
`baba-is-you-agent-framework` repository (files `src/baba/properties.py`,
`src/baba/world_object.py`, `src/baba/rule.py`, `src/baba/grid.py`,
`src/baba/registration.py`, `src/baba/all_objects.py`), together with
theorems settling the frozen claims about it.

Modelling conventions:
- Python `set[Object]` cells are modelled as `List Obj` together with the
  set's key semantics: `Object.__eq__`/`__hash__` compare `type_id` only, so
  insertion (`set.add`) is a no-op when an element with the same `type_id`
  is already present, and `set.discard` removes the element with the
  matching `type_id`.  List order models the (deterministic, insertion
  driven) iteration order of the CPython set.
- `grid[y][x]` indexing is modelled by a total function
  `cells : Int → Int → List Obj`; all Python accesses are bounds-checked
  before indexing, so the function values outside `[0,width) × [0,height)`
  are never consulted by the embedded operations (except to be preserved).
- Python `dict` tables (`RuleManager.properties` / `.transformations`) are
  modelled as insertion-ordered association lists, matching dict semantics
  (insertion order preserved, value overwritten in place on key collision).
- Text payload attributes (`noun`, `verb`, `property` on the text object
  dataclasses) are modelled as `Option` fields; a missing attribute or a
  Python-falsy value (`None`, `""`) fails the corresponding `hasattr`
  /truthiness test exactly as in the source.
- The recursive `Grid._try_move` is embedded with an explicit fuel
  parameter; the top-level entry point supplies `width + height + 1` fuel,
  which strictly exceeds the recursion depth reachable from `Grid.step`
  (each recursive call advances the target cell one step in a fixed
  nonzero direction, so it goes out of bounds after at most
  `max width height` steps).
-/

/-- The `Property` enum of `src/baba/properties.py` (18 members). -/
inductive GProp where
  | YOU | MOVE | SHIFT
  | STOP | PUSH | PULL | SWAP
  | WIN | DEFEAT | END
  | SINK | HOT | MELT | WEAK
  | OPEN | SHUT | FLOAT | TELE
  deriving DecidableEq, Repr

/-- The `.value` string of each `Property` member. -/
def GProp.val : GProp → String
  | .YOU => "YOU" | .MOVE => "MOVE" | .SHIFT => "SHIFT"
  | .STOP => "STOP" | .PUSH => "PUSH" | .PULL => "PULL" | .SWAP => "SWAP"
  | .WIN => "WIN" | .DEFEAT => "DEFEAT" | .END => "END"
  | .SINK => "SINK" | .HOT => "HOT" | .MELT => "MELT" | .WEAK => "WEAK"
  | .OPEN => "OPEN" | .SHUT => "SHUT" | .FLOAT => "FLOAT" | .TELE => "TELE"

/-- The `Property(value)` enum constructor: returns the member whose `.value`
equals the string exactly (Python raises `ValueError` otherwise, which the
source catches; we model that by `none`). -/
def parseProp : String → Option GProp
  | "YOU" => some .YOU | "MOVE" => some .MOVE | "SHIFT" => some .SHIFT
  | "STOP" => some .STOP | "PUSH" => some .PUSH | "PULL" => some .PULL
  | "SWAP" => some .SWAP | "WIN" => some .WIN | "DEFEAT" => some .DEFEAT
  | "END" => some .END | "SINK" => some .SINK | "HOT" => some .HOT
  | "MELT" => some .MELT | "WEAK" => some .WEAK | "OPEN" => some .OPEN
  | "SHUT" => some .SHUT | "FLOAT" => some .FLOAT | "TELE" => some .TELE
  | _ => none

/-- Python `str.upper` on the ASCII names used by this repository,
modelled character-wise so that it evaluates by kernel reduction
(`String.toUpper` itself is compiled by well-founded recursion). -/
def strUpper (s : String) : String := ⟨s.data.map Char.toUpper⟩

/-- Python `str.lower`, modelled like `strUpper`. -/
def strLower (s : String) : String := ⟨s.data.map Char.toLower⟩

/-- A live `Object` instance (`src/baba/world_object.py`).  `__eq__` and
`__hash__` compare `type_id` only; the text payload attributes of the
text-object dataclasses are modelled as `Option` fields (`none` models both
an absent attribute and a `None` value, which behave identically under the
source's `hasattr`-plus-truthiness probing). -/
structure Obj where
  name : String
  type_id : Nat
  is_text : Bool
  noun : Option String := none
  verb : Option String := none
  prop : Option GProp := none
  deriving DecidableEq, Repr

/-- A `Rule` (`src/baba/rule.py`): subject, verb, complement strings. -/
structure Rule where
  subject : String
  verb : String
  complement : String
  deriving DecidableEq, Repr

/-! ## RuleManager tables (`src/baba/rule.py`, class `RuleManager`) -/

/-- Python dict lookup `t.get(k)` on an insertion-ordered association list. -/
def dictGet {β : Type} (t : List (String × β)) (k : String) : Option β :=
  (t.find? (fun kv => kv.1 == k)).map (·.2)

/-- Python dict store `t[k] = v`: overwrite in place if the key is present
(keeping its position), else append a new entry. -/
def dictPut {β : Type} (t : List (String × β)) (k : String) (v : β) :
    List (String × β) :=
  if t.any (fun kv => kv.1 == k) then
    t.map (fun kv => if kv.1 == k then (kv.1, v) else kv)
  else t ++ [(k, v)]

/-- One step of `RuleManager._compute_properties`: for a rule whose verb is
`"IS"` and whose complement parses as a `Property`, add that property to the
subject's set (creating the entry if needed). -/
def addPropRule (t : List (String × List GProp)) (r : Rule) :
    List (String × List GProp) :=
  if r.verb == "IS" then
    match parseProp r.complement with
    | some p =>
        if t.any (fun kv => kv.1 == r.subject) then
          t.map (fun kv =>
            if kv.1 == r.subject then
              (kv.1, if p ∈ kv.2 then kv.2 else kv.2 ++ [p])
            else kv)
        else t ++ [(r.subject, [p])]
    | none => t
  else t

/-- Model of `RuleManager._compute_properties`: fold the rule list into the
subject → property-set table, starting from the cleared table. -/
def computeProperties (rules : List Rule) : List (String × List GProp) :=
  rules.foldl addPropRule []

/-- One step of `RuleManager._compute_transformations`: for a rule whose verb
is `"IS"` and whose complement does not parse as a `Property`, record
`subject → complement` (dict store, so a later rule overwrites). -/
def addTransRule (t : List (String × String)) (r : Rule) :
    List (String × String) :=
  if r.verb == "IS" then
    match parseProp r.complement with
    | some _ => t
    | none => dictPut t r.subject r.complement
  else t

/-- Model of `RuleManager._compute_transformations`. -/
def computeTransformations (rules : List Rule) : List (String × String) :=
  rules.foldl addTransRule []

/-- Model of `RuleManager.get_properties`: `self.properties.get(name.upper(), set())`. -/
def propsOf (t : List (String × List GProp)) (nm : String) : List GProp :=
  ((dictGet t (strUpper nm)).getD [])

/-- Model of `RuleManager.has_property`. -/
def hasProp (t : List (String × List GProp)) (nm : String) (p : GProp) : Bool :=
  p ∈ propsOf t nm

/-- Model of `RuleManager.get_you_objects`: subjects whose property set holds `YOU`,
in table (dict insertion) order. -/
def youObjects (t : List (String × List GProp)) : List String :=
  t.filterMap (fun kv => if GProp.YOU ∈ kv.2 then some kv.1 else none)

/-- Model of `RuleManager.get_win_objects`. -/
def winObjects (t : List (String × List GProp)) : List String :=
  t.filterMap (fun kv => if GProp.WIN ∈ kv.2 then some kv.1 else none)

/-- Model of `RuleManager.get_sink_objects`. -/
def sinkObjects (t : List (String × List GProp)) : List String :=
  t.filterMap (fun kv => if GProp.SINK ∈ kv.2 then some kv.1 else none)

/-- Model of `RuleManager.get_transformation`: `self.transformations.get(name.upper())`. -/
def getTransformation (t : List (String × String)) (nm : String) : Option String :=
  dictGet t (strUpper nm)

/-! ## Cell (Python `set[Object]`) operations -/

/-- Model of `set.add` under `Object.__eq__` (type_id comparison): a no-op when an
instance of the same type is already present. -/
def addObj (cell : List Obj) (o : Obj) : List Obj :=
  if cell.any (fun e => e.type_id == o.type_id) then cell else cell ++ [o]

/-- Model of `set.discard` under `Object.__eq__`: remove the instance with the
matching `type_id` (cells built through `addObj` hold at most one). -/
def removeObjCell (cell : List Obj) (o : Obj) : List Obj :=
  cell.filter (fun e => !(e.type_id == o.type_id))

/-! ## Grid state (`src/baba/grid.py`, class `Grid`) -/

/-- The `Grid` object: dimensions, cell contents (`grid[y][x]` is
`cells x y`), the embedded `RuleManager` state (`rules`, `properties`,
`transformations`), the `won`/`lost` flags and the step counter. -/
structure GameState where
  width : Nat
  height : Nat
  cells : Int → Int → List Obj
  rules : List Rule
  properties : List (String × List GProp)
  transformations : List (String × String)
  won : Bool
  lost : Bool
  steps : Nat

/-- The bounds test `0 <= x < self.width and 0 <= y < self.height`. -/
def inBounds (s : GameState) (x y : Int) : Prop :=
  0 ≤ x ∧ x < s.width ∧ 0 ≤ y ∧ y < s.height

instance (s : GameState) (x y : Int) : Decidable (inBounds s x y) := by
  unfold inBounds; infer_instance

/-- Model of `Grid.place_object`: bounds-checked `set.add`; silently does nothing out
of bounds.  (The Python method has no `return` statement: its value is
`None`, see `placeObjectRet`.) -/
def placeObject (s : GameState) (o : Obj) (x y : Int) : GameState :=
  if inBounds s x y then
    { s with cells := fun a b =>
        if a = x ∧ b = y then addObj (s.cells x y) o else s.cells a b }
  else s

/-- Model of `Grid.remove_object`: bounds-checked `set.discard`. -/
def removeObject (s : GameState) (o : Obj) (x y : Int) : GameState :=
  if inBounds s x y then
    { s with cells := fun a b =>
        if a = x ∧ b = y then removeObjCell (s.cells x y) o else s.cells a b }
  else s

/-- Model of `Grid.get_objects_at`: a copy of the cell when in bounds, else the empty
set. -/
def getObjectsAt (s : GameState) (x y : Int) : List Obj :=
  if inBounds s x y then s.cells x y else []

/-- Model of `Grid.move_object`: fails (returning `False`, grid untouched) when the
target is out of bounds; otherwise removes from the source and adds at the
target, returning `True`. -/
def moveObject (s : GameState) (o : Obj) (fromX fromY toX toY : Int) :
    GameState × Bool :=
  if inBounds s toX toY then
    (placeObject (removeObject s o fromX fromY) o toX toY, true)
  else (s, false)

/-- The index sequence `range(n)` of a Python `for` loop, as integers. -/
def intRange (n : Nat) : List Int :=
  (List.range n).map (fun i : Nat => (i : Int))

/-- Row-major list of all in-bounds grid positions, in the iteration order
`for y in range(height): for x in range(width)` used by `Grid.find_objects`,
`Grid._apply_transformations` and `Grid._handle_sinking`. -/
def gridPositions (w h : Nat) : List (Int × Int) :=
  (intRange h).flatMap (fun y => (intRange w).map (fun x => (x, y)))

/-- The filter of `Grid.find_objects` when called with `name=nm` (and
`obj_type=None`): with `obj_type` falsy the Python condition reduces to
`(name and obj.name.upper() == name.upper()) or (not name)`. -/
def findNameCond (nm : String) (o : Obj) : Bool :=
  (nm != "" && strUpper o.name == strUpper nm) || nm == ""

/-- Model of `Grid.find_objects(name=nm)`: all `(object, x, y)` triples in scan
order. -/
def findObjects (s : GameState) (nm : String) : List (Obj × Int × Int) :=
  (gridPositions s.width s.height).flatMap (fun p =>
    (s.cells p.1 p.2).filterMap (fun o =>
      if findNameCond nm o then some (o, p.1, p.2) else none))

/-! ## Rule extraction (`src/baba/rule.py`, class `RuleExtractor`) -/

/-- Model of `RuleExtractor._get_text_object`: the first text instance found in the
cell (set iteration order = our list order), if any. -/
def getTextObject (cell : List Obj) : Option Obj :=
  cell.find? (fun o => o.is_text)

/-- Model of `RuleExtractor._check_rule_at`: test the 3-cell window starting at
`(x, y)` in direction `(dx, dy)`.  Position 1 must have a truthy `noun`
payload, position 2 a truthy `verb` payload that lowercases to `"is"`, and
position 3 either a truthy `property` payload (property rule, complement is
the property's `.value`) or a truthy `noun` payload (transformation rule,
complement upper-cased). -/
def checkRuleAt (cells : Int → Int → List Obj) (x y dx dy : Int) : Option Rule :=
  match getTextObject (cells x y),
        getTextObject (cells (x + dx) (y + dy)),
        getTextObject (cells (x + 2 * dx) (y + 2 * dy)) with
  | some t1, some t2, some t3 =>
    match t1.noun with
    | none => none
    | some n1 =>
      if n1 = "" then none
      else
        match t2.verb with
        | none => none
        | some v2 =>
          if v2 = "" then none
          else if strLower v2 ≠ "is" then none
          else
            match t3.prop with
            | some p => some ⟨strUpper n1, "IS", p.val⟩
            | none =>
              match t3.noun with
              | some n3 => if n3 = "" then none else some ⟨strUpper n1, "IS", strUpper n3⟩
              | none => none
  | _, _, _ => none

/-- Model of `RuleExtractor.extract_rules`: horizontal pass
(`for y in range(height): for x in range(width - 2)`) followed by vertical
pass (`for y in range(height - 2): for x in range(width)`), appending the
rule of each valid window. -/
def extractRules (w h : Nat) (cells : Int → Int → List Obj) : List Rule :=
  ((intRange h).flatMap (fun y =>
    (intRange (w - 2)).filterMap (fun x => checkRuleAt cells x y 1 0)))
  ++ ((intRange (h - 2)).flatMap (fun y =>
    (intRange w).filterMap (fun x => checkRuleAt cells x y 0 1)))

/-! ### Reference scan written from the specification's words (§4.2), used
only to settle claim C5 by comparison with `extractRules` above. -/

/-- Modelled from the spec (§4.2): a window of three cell positions yields a
rule iff (1) all three cells contain a text instance (the first found is
picked), (2) the first has a populated `noun` payload, (3) the second's
`verb` payload equals `"is"` case-insensitively, (4) the third has a
`property` payload (complement = property name) or a `noun` payload
(complement = noun upper-cased). -/
def specWindowRule (cells : Int → Int → List Obj)
    (x1 y1 x2 y2 x3 y3 : Int) : Option Rule :=
  match (cells x1 y1).find? (fun o => o.is_text),
        (cells x2 y2).find? (fun o => o.is_text),
        (cells x3 y3).find? (fun o => o.is_text) with
  | some a, some b, some c =>
    match a.noun, b.verb with
    | some n, some v =>
      if n ≠ "" ∧ v ≠ "" ∧ strLower v = "is" then
        match c.prop with
        | some p => some ⟨strUpper n, "IS", p.val⟩
        | none => c.noun.bind (fun n3 =>
            if n3 = "" then none else some ⟨strUpper n, "IS", strUpper n3⟩)
      else none
    | _, _ => none
  | _, _, _ => none

/-- Modelled from the spec (§4.2): a row-major horizontal pass over all
window starting positions with `x ≤ width - 3`, then a row-major vertical
pass over all starting positions with `y ≤ height - 3`. -/
def extractRulesSpec (w h : Nat) (cells : Int → Int → List Obj) : List Rule :=
  ((intRange h).flatMap (fun y =>
    ((intRange w).filter (fun x => x ≤ (w : Int) - 3)).filterMap (fun x =>
      specWindowRule cells x y (x + 1) y (x + 2) y)))
  ++ (((intRange h).filter (fun y => y ≤ (h : Int) - 3)).flatMap (fun y =>
    (intRange w).filterMap (fun x =>
      specWindowRule cells x y x (y + 1) x (y + 2))))

/-! ## The Registry (`src/baba/registration.py` with the catalogue of
`src/baba/all_objects.py`).  `Registry._register_defaults` registers the 44
game objects of `ALL_OBJECTS` in dict order, assigning `type_id`s from a
counter starting at 1 (the class-level ids are overwritten); text objects
are registered afterwards with the following ids.  Only
`Registry.get_object` (non-text objects) is consulted by the simulation
core (`Grid._apply_transformations`). -/

/-- The 44 non-text templates of `ALL_OBJECTS`, in registration order; the
position (1-based) is the assigned `type_id`. -/
def registryNames : List String :=
  ["baba", "keke", "anni", "me",
   "wall", "rock", "flag", "tile", "grass", "brick", "hedge",
   "water", "lava", "bog",
   "door", "key", "skull", "fungus", "flower", "bolt", "pillar", "box",
   "belt",
   "bug", "foliage", "algae", "jelly", "bat", "bubble", "bird", "hand",
   "tree", "fruit", "rose", "love", "moon", "star", "dust", "ice", "leaf",
   "husk",
   "robot", "cog", "cup"]

/-- Model of `Registry.get_object(name)`: `self.objects.get(name.lower())`, yielding
the stored template (whose relevant attributes are its `name`, its
counter-assigned `type_id` and `is_text = False`; `copy.deepcopy` of a
template is modelled by the template value itself). -/
def registryGet (nm : String) : Option Obj :=
  (registryNames.indexOf? (strLower nm)).map (fun i =>
    { name := strLower nm, type_id := i + 1, is_text := false })

/-! ## Movement (`Grid._try_move`, `Grid.step` phase 1) -/

/-- Truth of the STOP test of `Grid._try_move`: some instance at the target
holds STOP. -/
def anyStop (t : List (String × List GProp)) (cell : List Obj) : Bool :=
  cell.any (fun o => hasProp t o.name GProp.STOP)

/-- The push-set of `Grid._try_move`: instances at the target that hold PUSH
or are text. -/
def pushSet (t : List (String × List GProp)) (cell : List Obj) : List Obj :=
  cell.filter (fun o => hasProp t o.name GProp.PUSH || o.is_text)

/-- Model of `Grid._try_move` with explicit fuel (the Python recursion strictly
advances the target one cell per level in a fixed nonzero direction, so from
`Grid.step` its depth is bounded by `max width height + 1`; the fuel used by
`tryMove` below exceeds that, making the `fuel = 0` branch unreachable).
Fails on an out-of-bounds target; fails (before any mutation) when an
instance at the target holds STOP; otherwise eagerly pushes each member of
the push-set one further cell — the Python `for` loop returns at the first
failed push with the mutations of the earlier successful pushes kept, which
the fold models by freezing the accumulator once its flag is `false` —
and finally commits the move itself. -/
def tryMoveFuel : Nat → GameState → Obj → Int → Int → Int → Int →
    GameState × Bool
  | 0, s, _, _, _, _, _ => (s, false)
  | Nat.succ n, s, o, fromX, fromY, toX, toY =>
    if ¬ inBounds s toX toY then (s, false)
    else
      let targets := getObjectsAt s toX toY
      if anyStop s.properties targets then (s, false)
      else
        let pushObjs := pushSet s.properties targets
        let dx := toX - fromX
        let dy := toY - fromY
        let chain := pushObjs.foldl (fun acc p =>
          if acc.2 then tryMoveFuel n acc.1 p toX toY (toX + dx) (toY + dy)
          else acc) (s, true)
        if chain.2 then ((moveObject chain.1 o fromX fromY toX toY).1, true)
        else (chain.1, false)

/-- Model of `Grid._try_move` as called by the engine: fuel `width + height + 1`. -/
def tryMove (s : GameState) (o : Obj) (fromX fromY toX toY : Int) :
    GameState × Bool :=
  tryMoveFuel (s.width + s.height + 1) s o fromX fromY toX toY

/-- The action/direction decoding of `Grid.step` (anything other than the
four direction strings gives zero displacement). -/
def dirOf (action : String) : Int × Int :=
  if action == "up" then (0, -1)
  else if action == "down" then (0, 1)
  else if action == "left" then (-1, 0)
  else if action == "right" then (1, 0)
  else (0, 0)

/-- Phase 1 of `Grid.step`: when the action implies a direction, for each
subject currently holding YOU (pre-move rule snapshot), take the
`find_objects` snapshot of its instances and attempt to move each one. -/
def movePhase (s : GameState) (action : String) : GameState :=
  let d := dirOf action
  if d.1 = 0 ∧ d.2 = 0 then s
  else
    (youObjects s.properties).foldl (fun st nm =>
      (findObjects st nm).foldl (fun st2 q =>
        (tryMove st2 q.1 q.2.1 q.2.2 (q.2.1 + d.1) (q.2.2 + d.2)).1) st) s

/-! ## Rule recompute, transformations, win/lose, sinking, `step` -/

/-- Model of `Grid._update_rules`: re-extract the rules from the grid and refresh the
RuleManager tables (`RuleManager.update_rules`). -/
def updateRules (s : GameState) : GameState :=
  let rs := extractRules s.width s.height s.cells
  { s with rules := rs
           properties := computeProperties rs
           transformations := computeTransformations rs }

/-- One collected transformation of `Grid._apply_transformations`: the old
instance, its position, and the registry template to clone. -/
structure TOp where
  obj : Obj
  x : Int
  y : Int
  tmpl : Obj
  deriving DecidableEq, Repr

/-- The transformation lookups for one cell (in cell iteration order): an
instance contributes when its name maps to a transformation target AND the
target is present in the registry (`registry.get_object(transform_to.lower())`). -/
def transOpsAt (s : GameState) (x y : Int) : List (Obj × Obj) :=
  (s.cells x y).filterMap (fun o =>
    (getTransformation s.transformations o.name).bind
      (fun tgt => (registryGet tgt).map (fun tmpl => (o, tmpl))))

/-- The collection pass of `Grid._apply_transformations` (row-major scan,
mutating nothing). -/
def collectTransforms (s : GameState) : List TOp :=
  (gridPositions s.width s.height).flatMap (fun p =>
    (transOpsAt s p.1 p.2).map (fun q => ⟨q.1, p.1, p.2, q.2⟩))

/-- One application step of `Grid._apply_transformations`: remove the old
instance and place a fresh clone of the template at the same position. -/
def applyTOp (st : GameState) (op : TOp) : GameState :=
  placeObject (removeObject st op.obj op.x op.y) op.tmpl op.x op.y

/-- The application pass of `Grid._apply_transformations`: perform each
collected transformation in collection order. -/
def applyTransformations (s : GameState) : GameState :=
  (collectTransforms s).foldl applyTOp s

/-- The win-scan of `Grid._check_win_lose`: some live instance of a
YOU subject shares its cell with an instance that is a different object
(`other_obj != you_obj`, i.e. different `type_id`) whose upper-cased name is
in the WIN subject list. -/
def winFound (s : GameState) : Bool :=
  (youObjects s.properties).any (fun ynm =>
    (findObjects s ynm).any (fun q =>
      (getObjectsAt s q.2.1 q.2.2).any (fun other =>
        !(other.type_id == q.1.type_id)
          && (winObjects s.properties).contains (strUpper other.name))))

/-- Model of `Grid._check_win_lose`: with no YOU subject, set `lost` (win not
evaluated); otherwise set `won` when the win-scan finds an overlap. -/
def checkWinLose (s : GameState) : GameState :=
  if (youObjects s.properties).isEmpty then { s with lost := true }
  else if winFound s then { s with won := true }
  else s

/-- The position-collection pass of `Grid._handle_sinking`: every `(x, y)`
holding an instance of a SINK subject (by `find_objects(name=...)`). -/
def sinkPositions (s : GameState) : List (Int × Int) :=
  (sinkObjects s.properties).flatMap (fun nm =>
    (findObjects s nm).map (fun q => (q.2.1, q.2.2)))

/-- One `self.grid[y][x].clear()` of `Grid._handle_sinking` (the collected
positions are in bounds, so the unchecked Python indexing is safe). -/
def clearCell (s : GameState) (p : Int × Int) : GameState :=
  { s with cells := fun a b => if a = p.1 ∧ b = p.2 then [] else s.cells a b }

/-- Model of `Grid._handle_sinking`: clear every collected sink position. -/
def handleSinking (s : GameState) : GameState :=
  (sinkPositions s).foldl clearCell s

/-- Model of `Grid.step`: bump the step counter, move the YOU instances, re-extract
rules, apply transformations, check win/lose, handle sinking.  (The Python
method returns the `(won, lost)` pair of the resulting state.) -/
def step (s : GameState) (action : String) : GameState :=
  handleSinking (checkWinLose (applyTransformations (updateRules
    (movePhase { s with steps := s.steps + 1 } action))))

/-- Model of `Grid.__init__`: an empty grid with freshly computed (empty) rules. -/
def initGrid (w h : Nat) : GameState :=
  updateRules { width := w, height := h, cells := fun _ _ => [],
                rules := [], properties := [], transformations := [],
                won := false, lost := false, steps := 0 }

/-- A grid populated by a level source (spec §6): repeated `place_object`
calls followed by one rule recompute before the first `step`. -/
def setupGrid (w h : Nat) (placements : List (Obj × Int × Int)) : GameState :=
  updateRules (placements.foldl (fun st q => placeObject st q.1 q.2.1 q.2.2)
    (initGrid w h))

/-- The RuleManager tables agree with the grid contents (holds on every grid
the engine hands out after `__init__`/`reset`/`copy` and at every point
where rules were just recomputed). -/
def rulesInSync (s : GameState) : Prop :=
  s.rules = extractRules s.width s.height s.cells
    ∧ s.properties = computeProperties s.rules
    ∧ s.transformations = computeTransformations s.rules

/-! ## Return values of the public mutation surface (for claim C9).
`Grid.place_object` and `Grid.remove_object` have no `return` statement: a
Python call to them evaluates to `None` whether or not the coordinates are
in bounds.  `Grid.move_object` returns an actual `bool`.  We expose the
Python return value as an `Option Bool` channel (`none` = Python `None`). -/

/-- Model of `Grid.place_object` with its Python return value. -/
def placeObjectRet (s : GameState) (o : Obj) (x y : Int) :
    GameState × Option Bool :=
  (placeObject s o x y, none)

/-- Model of `Grid.remove_object` with its Python return value. -/
def removeObjectRet (s : GameState) (o : Obj) (x y : Int) :
    GameState × Option Bool :=
  (removeObject s o x y, none)

/-- Model of `Grid.move_object` with its Python return value. -/
def moveObjectRet (s : GameState) (o : Obj) (fromX fromY toX toY : Int) :
    GameState × Option Bool :=
  ((moveObject s o fromX fromY toX toY).1,
   some (moveObject s o fromX fromY toX toY).2)

/-! ## Derived predicates used in the theorem statements -/

/-- The cell at `(x, y)` is cleared by `Grid._handle_sinking`: it is in
bounds and holds an instance matched by `find_objects(name=nm)` for some
SINK subject `nm`. -/
def cellSunk (s : GameState) (x y : Int) : Bool :=
  decide (inBounds s x y)
    && (sinkObjects s.properties).any (fun nm =>
         (s.cells x y).any (fun o => findNameCond nm o))

/-- The effective transformation of an instance: its name's transformation
target resolved through the registry (`none` when the name has no target or
the target is not registered — in both cases `Grid._apply_transformations`
leaves the instance alone). -/
def transOpOf (s : GameState) (o : Obj) : Option Obj :=
  (getTransformation s.transformations o.name).bind registryGet

/-- The property set recorded in a property table under the exact key `k`
(no upper-casing; used to state claim C6 about the table itself). -/
def tableProps (t : List (String × List GProp)) (k : String) : List GProp :=
  (dictGet t k).getD []

/-- The predicate "rule `r` feeds the transformation entry of subject `k`"
(subject matches and the complement does not parse as a Property); claim C6
describes the recorded complement as that of the last such rule. -/
def transRuleFor (k : String) (r : Rule) : Bool :=
  r.subject == k && (parseProp r.complement).isNone

/-! ## Concrete instances (registry templates and registry-created text
objects) used by the concrete example grids.  `type_id`s follow the
registration counter of `Registry._register_defaults`: the 44 `ALL_OBJECTS`
templates get ids 1..44 in dict order, the `ALL_TEXT_OBJECTS` templates the
following ids; text objects are named `<base>_text` and carry the payload
attributes of their `all_objects.py` dataclass. -/

/-- The `baba` template (`type_id` 1). -/
def babaI : Obj := { name := "baba", type_id := 1, is_text := false }

/-- The `wall` template (`type_id` 5). -/
def wallI : Obj := { name := "wall", type_id := 5, is_text := false }

/-- The `rock` template (`type_id` 6). -/
def rockI : Obj := { name := "rock", type_id := 6, is_text := false }

/-- The `flag` template (`type_id` 7). -/
def flagI : Obj := { name := "flag", type_id := 7, is_text := false }

/-- The `skull` template (`type_id` 17). -/
def skullI : Obj := { name := "skull", type_id := 17, is_text := false }

/-- The `BABA` noun text (`baba_text`, noun payload `"baba"`). -/
def babaT : Obj :=
  { name := "baba_text", type_id := 45, is_text := true, noun := some "baba" }

/-- The `WALL` noun text. -/
def wallT : Obj :=
  { name := "wall_text", type_id := 49, is_text := true, noun := some "wall" }

/-- The `ROCK` noun text. -/
def rockT : Obj :=
  { name := "rock_text", type_id := 50, is_text := true, noun := some "rock" }

/-- The `FLAG` noun text. -/
def flagT : Obj :=
  { name := "flag_text", type_id := 51, is_text := true, noun := some "flag" }

/-- The `SKULL` noun text. -/
def skullT : Obj :=
  { name := "skull_text", type_id := 61, is_text := true, noun := some "skull" }

/-- The `YOU` property text. -/
def youT : Obj :=
  { name := "you_text", type_id := 89, is_text := true, prop := some .YOU }

/-- The `WIN` property text. -/
def winT : Obj :=
  { name := "win_text", type_id := 90, is_text := true, prop := some .WIN }

/-- The `STOP` property text. -/
def stopT : Obj :=
  { name := "stop_text", type_id := 91, is_text := true, prop := some .STOP }

/-- The `PUSH` property text. -/
def pushT : Obj :=
  { name := "push_text", type_id := 92, is_text := true, prop := some .PUSH }

/-- The `IS` verb text. -/
def isT : Obj :=
  { name := "is_text", type_id := 105, is_text := true, verb := some "is" }

/-- A 3x3 grid with the sentences `BABA IS YOU` (row 0) and `FLAG IS WIN`
(row 1), with a `baba` instance standing on a `flag` instance at `(0, 2)`. -/
def sWin : GameState :=
  setupGrid 3 3
    [(babaT, 0, 0), (isT, 1, 0), (youT, 2, 0),
     (flagT, 0, 1), (isT, 1, 1), (winT, 2, 1),
     (babaI, 0, 2), (flagI, 0, 2)]

/-- A 4x5 grid with the sentences `ROCK IS PUSH`, `WALL IS PUSH`,
`SKULL IS STOP`, `BABA IS YOU` in rows 0..3 (columns 0..2), and in row 4 a
`baba` at `(0,4)`, a `rock` and a `wall` stacked at `(1,4)`, an empty cell
at `(2,4)` and a `skull` at `(3,4)`. -/
def sPush : GameState :=
  setupGrid 4 5
    [(rockT, 0, 0), (isT, 1, 0), (pushT, 2, 0),
     (wallT, 0, 1), (isT, 1, 1), (pushT, 2, 1),
     (skullT, 0, 2), (isT, 1, 2), (stopT, 2, 2),
     (babaT, 0, 3), (isT, 1, 3), (youT, 2, 3),
     (babaI, 0, 4), (rockI, 1, 4), (wallI, 1, 4), (skullI, 3, 4)]

/-- A 3x3 grid with the mutually inverse sentences `ROCK IS BABA` (row 0)
and `BABA IS ROCK` (row 1), with a `rock` and a `baba` stacked at `(0,2)`. -/
def sSwap : GameState :=
  setupGrid 3 3
    [(rockT, 0, 0), (isT, 1, 0), (babaT, 2, 0),
     (babaT, 0, 1), (isT, 1, 1), (rockT, 2, 1),
     (rockI, 0, 2), (babaI, 0, 2)]

/-- A 3x2 grid with the sentence `ROCK IS BABA` (row 0) and a single `rock`
instance at `(0, 1)`. -/
def sOne : GameState :=
  setupGrid 3 2
    [(rockT, 0, 0), (isT, 1, 0), (babaT, 2, 0),
     (rockI, 0, 1)]

/-- The two states agree on everything except possibly the cell contents
(the mutation footprint of the cell-level operations). -/
def EqExceptCells (s t : GameState) : Prop :=
  t.width = s.width ∧ t.height = s.height ∧ t.rules = s.rules
    ∧ t.properties = s.properties ∧ t.transformations = s.transformations
    ∧ t.won = s.won ∧ t.lost = s.lost ∧ t.steps = s.steps

/-- A second `rock`-typed instance whose `name` attribute was mutated: it is
a distinct Python object of the same type (`type_id` 6), so `Object.__eq__`
considers it equal to the `rock` template. -/
def rockB : Obj := { name := "rock2", type_id := 6, is_text := false }

/-- A 1x1 grid on which the `rock` template and then the distinct same-type
instance `rockB` are placed at `(0, 0)` via `place_object`. -/
def sDup : GameState :=
  placeObject (placeObject (initGrid 1 1) rockI 0 0) rockB 0 0

/-- A small rule list exercising both RuleManager tables: one property rule
and two transformation rules for the same subject. -/
def myRules : List Rule :=
  [⟨"BABA", "IS", "YOU"⟩, ⟨"ROCK", "IS", "BABA"⟩, ⟨"ROCK", "IS", "WALL"⟩]

/-! ## Infrastructure lemmas -/

theorem mem_intRange {n : Nat} {a : Int} :
    a ∈ intRange n ↔ 0 ≤ a ∧ a < (n : Int) := by
  simp only [intRange, List.mem_map, List.mem_range]
  constructor
  · rintro ⟨b, hb, rfl⟩
    omega
  · intro h
    exact ⟨a.toNat, by omega, by omega⟩

theorem nodup_intRange {n : Nat} : (intRange n).Nodup := by
  refine List.Nodup.map ?_ (List.nodup_range _)
  intro a b h
  simpa using h

theorem mem_gridPositions {w h : Nat} {x y : Int} :
    ((x, y) : Int × Int) ∈ gridPositions w h ↔
      0 ≤ x ∧ x < (w : Int) ∧ 0 ≤ y ∧ y < (h : Int) := by
  simp only [gridPositions, List.mem_flatMap, List.mem_map, Prod.mk.injEq]
  constructor
  · rintro ⟨b, hb, a, ha, rfl, rfl⟩
    have hb' := mem_intRange.mp hb
    have ha' := mem_intRange.mp ha
    exact ⟨ha'.1, ha'.2, hb'.1, hb'.2⟩
  · rintro ⟨hx0, hxw, hy0, hyh⟩
    exact ⟨y, mem_intRange.mpr ⟨hy0, hyh⟩, x, mem_intRange.mpr ⟨hx0, hxw⟩,
      rfl, rfl⟩

theorem nodup_gridPositions {w h : Nat} : (gridPositions w h).Nodup := by
  unfold gridPositions
  rw [List.nodup_flatMap]
  constructor
  · intro b _
    refine List.Nodup.map ?_ nodup_intRange
    intro a a' haa'
    simpa using congrArg Prod.fst haa'
  · refine List.Pairwise.imp ?_ nodup_intRange
    intro b b' hbb' p hp hp'
    simp only [Function.onFun, List.mem_map] at hp hp'
    rcases hp with ⟨a, _, rfl⟩
    rcases hp' with ⟨a', _, h⟩
    exact hbb' (by simpa using (congrArg Prod.snd h).symm)

theorem mem_findObjects {s : GameState} {nm : String} {o : Obj} {x y : Int} :
    (o, x, y) ∈ findObjects s nm ↔
      inBounds s x y ∧ o ∈ s.cells x y ∧ findNameCond nm o = true := by
  simp only [findObjects, List.mem_flatMap, List.mem_filterMap]
  constructor
  · rintro ⟨⟨px, py⟩, hp, o', ho', hcond⟩
    by_cases hc : findNameCond nm o' = true
    · rw [if_pos hc] at hcond
      have h := Option.some.inj hcond
      have h1 : o' = o := congrArg (fun t => t.1) h
      have h2 : px = x := congrArg (fun t => t.2.1) h
      have h3 : py = y := congrArg (fun t => t.2.2) h
      subst h1; subst h2; subst h3
      exact ⟨mem_gridPositions.mp hp, ho', hc⟩
    · rw [if_neg hc] at hcond
      exact absurd hcond (by simp)
  · rintro ⟨hb, ho, hcond⟩
    exact ⟨(x, y), mem_gridPositions.mpr hb, o, ho, by rw [if_pos hcond]⟩

theorem mem_addObj_of_mem {c : List Obj} {o a : Obj} (h : a ∈ c) :
    a ∈ addObj c o := by
  unfold addObj
  split
  · exact h
  · exact List.mem_append_left _ h

theorem exists_type_mem_addObj (c : List Obj) (o : Obj) :
    ∃ e ∈ addObj c o, e.type_id = o.type_id := by
  unfold addObj
  split
  · next hany =>
    rcases List.any_eq_true.mp hany with ⟨e, he, hty⟩
    exact ⟨e, he, by simpa using hty⟩
  · exact ⟨o, List.mem_append_right _ (List.mem_singleton_self o), rfl⟩

theorem mem_addObj {c : List Obj} {o a : Obj} (h : a ∈ addObj c o) :
    a ∈ c ∨ a = o := by
  unfold addObj at h
  split at h
  · exact Or.inl h
  · rcases List.mem_append.mp h with h' | h'
    · exact Or.inl h'
    · exact Or.inr (List.mem_singleton.mp h')

theorem mem_removeObjCell {c : List Obj} {o a : Obj} :
    a ∈ removeObjCell c o ↔ a ∈ c ∧ a.type_id ≠ o.type_id := by
  simp [removeObjCell, List.mem_filter]

theorem eqExceptCells_refl (s : GameState) : EqExceptCells s s :=
  ⟨rfl, rfl, rfl, rfl, rfl, rfl, rfl, rfl⟩

theorem eqExceptCells_trans {s t u : GameState}
    (h1 : EqExceptCells s t) (h2 : EqExceptCells t u) : EqExceptCells s u := by
  obtain ⟨a1, a2, a3, a4, a5, a6, a7, a8⟩ := h1
  obtain ⟨b1, b2, b3, b4, b5, b6, b7, b8⟩ := h2
  exact ⟨b1.trans a1, b2.trans a2, b3.trans a3, b4.trans a4, b5.trans a5,
    b6.trans a6, b7.trans a7, b8.trans a8⟩

theorem eqExceptCells_placeObject (s : GameState) (o : Obj) (x y : Int) :
    EqExceptCells s (placeObject s o x y) := by
  unfold placeObject
  split
  · exact ⟨rfl, rfl, rfl, rfl, rfl, rfl, rfl, rfl⟩
  · exact eqExceptCells_refl s

theorem eqExceptCells_removeObject (s : GameState) (o : Obj) (x y : Int) :
    EqExceptCells s (removeObject s o x y) := by
  unfold removeObject
  split
  · exact ⟨rfl, rfl, rfl, rfl, rfl, rfl, rfl, rfl⟩
  · exact eqExceptCells_refl s

theorem eqExceptCells_clearCell (s : GameState) (p : Int × Int) :
    EqExceptCells s (clearCell s p) :=
  ⟨rfl, rfl, rfl, rfl, rfl, rfl, rfl, rfl⟩

theorem eqExceptCells_applyTOp (s : GameState) (op : TOp) :
    EqExceptCells s (applyTOp s op) :=
  eqExceptCells_trans (eqExceptCells_removeObject s op.obj op.x op.y)
    (eqExceptCells_placeObject _ op.tmpl op.x op.y)

theorem eqExceptCells_foldl {α : Type} (f : GameState → α → GameState)
    (hf : ∀ st a, EqExceptCells st (f st a)) :
    ∀ (l : List α) (s : GameState), EqExceptCells s (l.foldl f s) := by
  intro l
  induction l with
  | nil => intro s; exact eqExceptCells_refl s
  | cons a l ih =>
    intro s
    exact eqExceptCells_trans (hf s a) (ih (f s a))

theorem eqExceptCells_applyTransformations (s : GameState) :
    EqExceptCells s (applyTransformations s) :=
  eqExceptCells_foldl applyTOp eqExceptCells_applyTOp _ s

theorem eqExceptCells_handleSinking (s : GameState) :
    EqExceptCells s (handleSinking s) :=
  eqExceptCells_foldl clearCell eqExceptCells_clearCell _ s

theorem inBounds_of_eqExceptCells {s t : GameState} (h : EqExceptCells s t)
    {x y : Int} (hb : inBounds s x y) : inBounds t x y := by
  unfold inBounds at hb ⊢
  rw [h.1, h.2.1]
  exact hb

theorem cells_foldl_clearCell (ps : List (Int × Int)) (s : GameState)
    (x y : Int) :
    ((ps.foldl clearCell s).cells x y) =
      if (x, y) ∈ ps then [] else s.cells x y := by
  induction ps generalizing s with
  | nil => simp
  | cons p ps ih =>
    rw [List.foldl_cons, ih]
    by_cases hmem : (x, y) ∈ ps
    · simp [hmem]
    · by_cases hp : ((x, y) : Int × Int) = p
      · have hxy : x = p.1 ∧ y = p.2 := by
          constructor
          · exact congrArg Prod.fst hp
          · exact congrArg Prod.snd hp
        simp [clearCell, hmem, hp, hxy]
      · have hxy : ¬(x = p.1 ∧ y = p.2) := by
          rintro ⟨h1, h2⟩
          exact hp (by rw [h1, h2])
        simp [clearCell, hmem, hp, hxy]

theorem applyTOp_cells_ne (st : GameState) (op : TOp) (x y : Int)
    (h : ¬(op.x = x ∧ op.y = y)) : (applyTOp st op).cells x y = st.cells x y := by
  have h' : ¬(x = op.x ∧ y = op.y) := by
    rintro ⟨h1, h2⟩
    exact h ⟨h1.symm, h2.symm⟩
  simp only [applyTOp, placeObject, removeObject]
  split <;> (try split) <;> simp [h']

theorem applyTOp_cells_self (st : GameState) (op : TOp)
    (h : inBounds st op.x op.y) :
    (applyTOp st op).cells op.x op.y =
      addObj (removeObjCell (st.cells op.x op.y) op.obj) op.tmpl := by
  simp only [applyTOp, placeObject, removeObject]
  split
  · split
    · simp
    · next hneg => exact absurd h hneg
  · next hneg => exact absurd h hneg

theorem flatMap_filter_local (ps : List (Int × Int)) (f : Int × Int → List TOp)
    (hf : ∀ p, ∀ op ∈ f p, ((op.x, op.y) : Int × Int) = p) (hnd : ps.Nodup)
    (x y : Int) :
    (ps.flatMap f).filter (fun op => decide (((op.x, op.y) : Int × Int) = (x, y))) =
      if ((x, y) : Int × Int) ∈ ps then f (x, y) else [] := by
  induction ps with
  | nil => simp
  | cons p ps ih =>
    rw [List.nodup_cons] at hnd
    rw [List.flatMap_cons, List.filter_append, ih hnd.2]
    by_cases hp : ((x, y) : Int × Int) = p
    · have hall : (f p).filter
          (fun op => decide (((op.x, op.y) : Int × Int) = (x, y))) = f p := by
        apply List.filter_eq_self.mpr
        intro op hop
        rw [hf p op hop, hp]
        simp
      have hmem : ¬ ((x, y) : Int × Int) ∈ ps := by
        rw [hp]; exact hnd.1
      rw [hall, if_neg hmem, if_pos (by simp [List.mem_cons, hp]), hp,
        List.append_nil]
    · have hnone : (f p).filter
          (fun op => decide (((op.x, op.y) : Int × Int) = (x, y))) = [] := by
        apply List.filter_eq_nil_iff.mpr
        intro op hop
        rw [hf p op hop]
        simp only [decide_eq_true_eq]
        intro hc
        exact hp (hc ▸ rfl)
      rw [hnone, List.nil_append]
      by_cases hmem : ((x, y) : Int × Int) ∈ ps
      · rw [if_pos hmem, if_pos (List.mem_cons_of_mem p hmem)]
      · rw [if_neg hmem, if_neg (by simp [List.mem_cons, hp, hmem])]

theorem cells_foldl_applyTOp (ops : List TOp) (st : GameState) (x y : Int)
    (hb : inBounds st x y) :
    ((ops.foldl applyTOp st).cells x y) =
      (ops.filter (fun op => decide (((op.x, op.y) : Int × Int) = (x, y)))).foldl
        (fun c op => addObj (removeObjCell c op.obj) op.tmpl) (st.cells x y) := by
  induction ops generalizing st with
  | nil => simp
  | cons op ops ih =>
    have hbb : inBounds (applyTOp st op) x y :=
      inBounds_of_eqExceptCells (eqExceptCells_applyTOp st op) hb
    rw [List.foldl_cons, List.filter_cons, ih _ hbb]
    by_cases hc : ((op.x, op.y) : Int × Int) = (x, y)
    · have hx : op.x = x := congrArg Prod.fst hc
      have hy : op.y = y := congrArg Prod.snd hc
      rw [if_pos (by simp [hc]), List.foldl_cons]
      congr 1
      subst hx; subst hy
      exact applyTOp_cells_self st op hb
    · rw [if_neg (by simp [hc])]
      congr 1
      refine applyTOp_cells_ne st op x y ?_
      rintro ⟨h1, h2⟩
      exact hc (by rw [h1, h2])

theorem filter_collectTransforms (s : GameState) (x y : Int)
    (hb : inBounds s x y) :
    (collectTransforms s).filter
        (fun op => decide (((op.x, op.y) : Int × Int) = (x, y))) =
      (transOpsAt s x y).map (fun q => ⟨q.1, x, y, q.2⟩) := by
  unfold collectTransforms
  rw [flatMap_filter_local _ _ ?_ nodup_gridPositions x y]
  · rw [if_pos (mem_gridPositions.mpr hb)]
  · intro p op hop
    simp only [List.mem_map] at hop
    rcases hop with ⟨q, _, rfl⟩
    exact Prod.mk.eta

theorem mem_transOpsAt {s : GameState} {x y : Int} {o t : Obj} :
    (o, t) ∈ transOpsAt s x y ↔
      o ∈ s.cells x y ∧ ∃ tgt, getTransformation s.transformations o.name = some tgt
        ∧ registryGet tgt = some t := by
  simp only [transOpsAt, List.mem_filterMap]
  constructor
  · rintro ⟨o', ho', hmt⟩
    rcases Option.bind_eq_some.mp hmt with ⟨tgt, hg, hmap⟩
    rcases Option.map_eq_some'.mp hmap with ⟨tmpl, hr, heq⟩
    have h1 : o' = o := congrArg Prod.fst heq
    have h2 : tmpl = t := congrArg Prod.snd heq
    subst h1; subst h2
    exact ⟨ho', tgt, hg, hr⟩
  · rintro ⟨ho, tgt, hg, hr⟩
    exact ⟨o, ho, by rw [hg, Option.some_bind, hr, Option.map_some']⟩

/-! ## Dictionary lemmas (for the RuleManager table characterizations) -/

theorem dictGet_nil {β : Type} (k : String) :
    dictGet ([] : List (String × β)) k = none := rfl

theorem dictGet_cons {β : Type} (kv : String × β) (t : List (String × β))
    (k : String) :
    dictGet (kv :: t) k = if kv.1 = k then some kv.2 else dictGet t k := by
  by_cases h : kv.1 = k
  · simp [dictGet, List.find?, h]
  · have hb : (kv.1 == k) = false := beq_eq_false_iff_ne.mpr h
    simp [dictGet, List.find?, hb, h]

theorem any_key_eq_isSome {β : Type} (t : List (String × β)) (k : String) :
    (t.any (fun kv => kv.1 == k)) = (dictGet t k).isSome := by
  induction t with
  | nil => rfl
  | cons kv t ih =>
    rw [List.any_cons, dictGet_cons]
    by_cases h : kv.1 = k <;> simp [h, ih]

theorem dictGet_map_put {β : Type} (t : List (String × β)) (k : String) (v : β)
    (k' : String) :
    dictGet (t.map (fun kv => if kv.1 == k then (kv.1, v) else kv)) k' =
      if k' = k then (dictGet t k).map (fun _ => v) else dictGet t k' := by
  induction t with
  | nil => by_cases h : k' = k <;> simp [dictGet_nil, h]
  | cons kv t ih =>
    simp only [List.map_cons, beq_iff_eq] at ih ⊢
    by_cases hbk : kv.1 = k
    · rw [if_pos hbk]
      simp only [dictGet_cons]
      by_cases hkk : k' = k
      · subst hkk
        simp [hbk]
      · have h2 : ¬ kv.1 = k' := by
          rw [hbk]
          exact fun hc => hkk hc.symm
        simp [h2, hkk, ih]
    · rw [if_neg hbk]
      simp only [dictGet_cons]
      by_cases hbk' : kv.1 = k'
      · have hkk : ¬ k' = k := fun hc => hbk (hbk'.trans hc)
        simp [hbk', hkk]
      · simp [hbk, hbk', ih]

theorem dictGet_append_one {β : Type} (t : List (String × β)) (k : String)
    (v : β) (k' : String) :
    dictGet (t ++ [(k, v)]) k' =
      match dictGet t k' with
      | some w => some w
      | none => if k' = k then some v else none := by
  induction t with
  | nil =>
    rw [List.nil_append, dictGet_cons, dictGet_nil]
    by_cases h : k' = k
    · simp [h]
    · have h2 : ¬ k = k' := fun hc => h hc.symm
      simp [h, h2]
  | cons kv t ih =>
    rw [List.cons_append, dictGet_cons, dictGet_cons]
    by_cases h : kv.1 = k' <;> simp [h, ih]

theorem dictGet_dictPut {β : Type} (t : List (String × β)) (k : String) (v : β)
    (k' : String) :
    dictGet (dictPut t k v) k' = if k' = k then some v else dictGet t k' := by
  unfold dictPut
  split
  · next hany =>
    rw [dictGet_map_put]
    by_cases h : k' = k
    · rw [if_pos h, if_pos h]
      rw [any_key_eq_isSome] at hany
      rcases Option.isSome_iff_exists.mp hany with ⟨w, hw⟩
      rw [hw, Option.map_some']
    · rw [if_neg h, if_neg h]
  · next hany =>
    rw [dictGet_append_one]
    have hnone : dictGet t k = none := by
      rw [any_key_eq_isSome] at hany
      exact Option.not_isSome_iff_eq_none.mp (by simpa using hany)
    by_cases h : k' = k
    · subst h
      rw [hnone]
    · cases hx : dictGet t k' <;> simp [h]

theorem mem_addPropSet {l : List GProp} {q p' : GProp} :
    p' ∈ (if q ∈ l then l else l ++ [q]) ↔ p' ∈ l ∨ p' = q := by
  by_cases h : q ∈ l
  · rw [if_pos h]
    exact ⟨Or.inl, fun h' => h'.elim id (fun e => e ▸ h)⟩
  · rw [if_neg h]
    simp [List.mem_append]

theorem dictGet_map_addp (t : List (String × List GProp)) (k : String)
    (q : GProp) (k' : String) :
    dictGet (t.map (fun kv =>
        if kv.1 == k then (kv.1, if q ∈ kv.2 then kv.2 else kv.2 ++ [q]) else kv)) k' =
      if k' = k then (dictGet t k).map (fun l => if q ∈ l then l else l ++ [q])
      else dictGet t k' := by
  induction t with
  | nil => by_cases h : k' = k <;> simp [dictGet_nil, h]
  | cons kv t ih =>
    simp only [List.map_cons, beq_iff_eq] at ih ⊢
    by_cases hbk : kv.1 = k
    · rw [if_pos hbk]
      simp only [dictGet_cons]
      by_cases hkk : k' = k
      · subst hkk
        simp [hbk]
      · have h2 : ¬ kv.1 = k' := by
          rw [hbk]
          exact fun hc => hkk hc.symm
        simp [h2, hkk, ih]
    · rw [if_neg hbk]
      simp only [dictGet_cons]
      by_cases hbk' : kv.1 = k'
      · have hkk : ¬ k' = k := fun hc => hbk (hbk'.trans hc)
        simp [hbk', hkk]
      · simp [hbk, hbk', ih]

theorem addPropRule_not_is {t : List (String × List GProp)} {r : Rule}
    (h : ¬ r.verb = "IS") : addPropRule t r = t := by
  unfold addPropRule
  rw [if_neg (by simp [h])]

theorem addPropRule_not_prop {t : List (String × List GProp)} {r : Rule}
    (h : parseProp r.complement = none) : addPropRule t r = t := by
  unfold addPropRule
  split
  · rw [h]
  · rfl

theorem addPropRule_is_prop {t : List (String × List GProp)} {r : Rule}
    {q : GProp} (hv : r.verb = "IS") (hp : parseProp r.complement = some q) :
    addPropRule t r =
      if t.any (fun kv => kv.1 == r.subject) then
        t.map (fun kv =>
          if kv.1 == r.subject then
            (kv.1, if q ∈ kv.2 then kv.2 else kv.2 ++ [q])
          else kv)
      else t ++ [(r.subject, [q])] := by
  unfold addPropRule
  rw [if_pos (beq_iff_eq.mpr hv), hp]

theorem mem_tableProps_addPropRule {t : List (String × List GProp)} {r : Rule}
    {k : String} {p' : GProp} :
    p' ∈ tableProps (addPropRule t r) k ↔
      p' ∈ tableProps t k
        ∨ (r.verb = "IS" ∧ r.subject = k ∧ parseProp r.complement = some p') := by
  by_cases hv : r.verb = "IS"
  · cases hp : parseProp r.complement with
    | none =>
      rw [addPropRule_not_prop hp]
      simp [hp]
    | some q =>
      rw [addPropRule_is_prop hv hp]
      split
      · next hany =>
        unfold tableProps
        rw [dictGet_map_addp]
        by_cases hk : k = r.subject
        · subst hk
          rw [if_pos rfl]
          rw [any_key_eq_isSome] at hany
          rcases Option.isSome_iff_exists.mp hany with ⟨l, hl⟩
          rw [hl, Option.map_some']
          simp only [Option.getD_some]
          rw [mem_addPropSet]
          simp [hv, eq_comm]
        · rw [if_neg hk]
          have h2 : ¬ r.subject = k := fun hc => hk hc.symm
          simp [tableProps, h2]
      · next hany =>
        unfold tableProps
        rw [dictGet_append_one]
        by_cases hk : k = r.subject
        · subst hk
          have hnone : dictGet t r.subject = none := by
            rw [any_key_eq_isSome] at hany
            exact Option.not_isSome_iff_eq_none.mp (by simpa using hany)
          rw [hnone]
          simp [hv, eq_comm]
        · have h2 : ¬ r.subject = k := fun hc => hk hc.symm
          cases hx : dictGet t k
          · simp [hk, h2]
          · simp [h2]
  · rw [addPropRule_not_is hv]
    simp [hv]

theorem mem_tableProps_foldl (rs : List Rule) :
    ∀ (t : List (String × List GProp)) (k : String) (p' : GProp),
      p' ∈ tableProps (rs.foldl addPropRule t) k ↔
        p' ∈ tableProps t k
          ∨ ∃ r ∈ rs, r.verb = "IS" ∧ r.subject = k
              ∧ parseProp r.complement = some p' := by
  induction rs with
  | nil =>
    intro t k p'
    simp
  | cons r rs ih =>
    intro t k p'
    rw [List.foldl_cons, ih, mem_tableProps_addPropRule]
    simp only [List.mem_cons]
    constructor
    · rintro ((h | h) | ⟨r', hr', h⟩)
      · exact Or.inl h
      · exact Or.inr ⟨r, Or.inl rfl, h⟩
      · exact Or.inr ⟨r', Or.inr hr', h⟩
    · rintro (h | ⟨r', (rfl | hr'), h⟩)
      · exact Or.inl (Or.inl h)
      · exact Or.inl (Or.inr h)
      · exact Or.inr ⟨r', hr', h⟩

theorem dictGet_addTransRule (t : List (String × String)) (r : Rule)
    (k : String) :
    dictGet (addTransRule t r) k =
      if r.verb = "IS" ∧ r.subject = k ∧ (parseProp r.complement).isNone = true
      then some r.complement
      else dictGet t k := by
  unfold addTransRule
  by_cases hv : r.verb = "IS"
  · rw [if_pos (beq_iff_eq.mpr hv)]
    cases hp : parseProp r.complement with
    | some q => simp
    | none =>
      rw [dictGet_dictPut]
      by_cases hk : k = r.subject
      · simp [hv, hk]
      · have h2 : ¬ r.subject = k := fun hc => hk hc.symm
        simp [hk, h2]
  · have hb : (r.verb == "IS") = false := beq_eq_false_iff_ne.mpr hv
    rw [if_neg (by simp [hb])]
    simp [hv]

theorem dictGet_foldl_addTransRule (rs : List Rule) :
    ∀ (t : List (String × String)) (k : String),
      dictGet (rs.foldl addTransRule t) k =
        match rs.reverse.find? (fun r =>
            r.verb == "IS" && r.subject == k && (parseProp r.complement).isNone) with
        | some r => some r.complement
        | none => dictGet t k := by
  induction rs with
  | nil => intro t k; rfl
  | cons r rs ih =>
    intro t k
    rw [List.foldl_cons, ih, List.reverse_cons, List.find?_append]
    cases hfind : rs.reverse.find? (fun r =>
        r.verb == "IS" && r.subject == k && (parseProp r.complement).isNone) with
    | some r' => rfl
    | none =>
      rw [Option.none_or, dictGet_addTransRule]
      by_cases h1 : r.verb = "IS"
      · have b1 : (r.verb == "IS") = true := beq_iff_eq.mpr h1
        by_cases h2 : r.subject = k
        · have b2 : (r.subject == k) = true := beq_iff_eq.mpr h2
          cases h3 : (parseProp r.complement).isNone with
          | true => simp [List.find?, b1, b2, h3, h1, h2]
          | false => simp [List.find?, b1, b2, h3, h1, h2]
        · have b2 : (r.subject == k) = false := beq_eq_false_iff_ne.mpr h2
          simp [List.find?, b1, b2, h2]
      · have b1 : (r.verb == "IS") = false := beq_eq_false_iff_ne.mpr h1
        simp [List.find?, b1, h1]

/-! ## Engine-level lemmas -/

theorem updateRules_of_sync {s : GameState} (h : rulesInSync s) :
    updateRules s = s := by
  obtain ⟨h1, h2, h3⟩ := h
  cases s with
  | mk w hh c rs ps ts wn ls st =>
    dsimp only at h1 h2 h3
    subst h1
    subst h2
    subst h3
    rfl

theorem movePhase_of_no_you {s : GameState} (a : String)
    (h : youObjects s.properties = []) : movePhase s a = s := by
  simp [movePhase, h]

theorem movePhase_wait (s : GameState) : movePhase s "wait" = s := by
  simp [movePhase, dirOf]

theorem transOpsAt_of_empty {s : GameState} (h : s.transformations = [])
    (x y : Int) : transOpsAt s x y = [] := by
  unfold transOpsAt
  apply List.filterMap_eq_nil_iff.mpr
  intro o _
  rw [h]
  rfl

theorem applyTransformations_of_empty {s : GameState}
    (h : s.transformations = []) : applyTransformations s = s := by
  unfold applyTransformations collectTransforms
  have hz : ∀ p ∈ gridPositions s.width s.height,
      (transOpsAt s p.1 p.2).map
        (fun q => (⟨q.1, p.1, p.2, q.2⟩ : TOp)) = [] := by
    intro p _
    rw [transOpsAt_of_empty h]
    rfl
  rw [List.flatMap_eq_nil_iff.mpr hz]
  rfl

theorem checkWinLose_of_no_you {s : GameState}
    (h : youObjects s.properties = []) :
    checkWinLose s = { s with lost := true } := by
  unfold checkWinLose
  rw [if_pos (by simp [h])]

theorem checkWinLose_won_of {s : GameState}
    (hne : ¬ (youObjects s.properties).isEmpty = true)
    (hw : winFound s = true) : checkWinLose s = { s with won := true } := by
  unfold checkWinLose
  rw [if_neg hne, if_pos hw]

theorem winFound_iff {s : GameState} :
    winFound s = true ↔
      ∃ ynm ∈ youObjects s.properties, ∃ q ∈ findObjects s ynm,
        ∃ other ∈ getObjectsAt s q.2.1 q.2.2,
          ¬ other.type_id = q.1.type_id
            ∧ strUpper other.name ∈ winObjects s.properties := by
  unfold winFound
  simp [List.any_eq_true, List.elem_iff]

theorem mem_sinkPositions {s : GameState} {x y : Int} :
    ((x, y) : Int × Int) ∈ sinkPositions s ↔
      inBounds s x y ∧ ∃ nm ∈ sinkObjects s.properties,
        ∃ o ∈ s.cells x y, findNameCond nm o = true := by
  unfold sinkPositions
  simp only [List.mem_flatMap, List.mem_map]
  constructor
  · rintro ⟨nm, hnm, ⟨o, px, py⟩, hq, heq⟩
    have hx : px = x := congrArg Prod.fst heq
    have hy : py = y := congrArg Prod.snd heq
    subst hx
    subst hy
    have hm := mem_findObjects.mp hq
    exact ⟨hm.1, nm, hnm, o, hm.2.1, hm.2.2⟩
  · rintro ⟨hb, nm, hnm, o, ho, hcond⟩
    exact ⟨nm, hnm, (o, x, y), mem_findObjects.mpr ⟨hb, ho, hcond⟩, rfl⟩

theorem cellSunk_iff {s : GameState} {x y : Int} :
    cellSunk s x y = true ↔ ((x, y) : Int × Int) ∈ sinkPositions s := by
  rw [mem_sinkPositions]
  unfold cellSunk
  simp only [Bool.and_eq_true, decide_eq_true_eq, List.any_eq_true]

theorem handleSinking_cells (s : GameState) (x y : Int) :
    (handleSinking s).cells x y =
      if cellSunk s x y = true then [] else s.cells x y := by
  unfold handleSinking
  rw [cells_foldl_clearCell]
  by_cases h : ((x, y) : Int × Int) ∈ sinkPositions s
  · rw [if_pos h, if_pos (cellSunk_iff.mpr h)]
  · rw [if_neg h, if_neg (fun hc => h (cellSunk_iff.mp hc))]

/-! ## Claim theorems -/

/-- Claim C8 (confirmed): in every step, after the win/lose check, each cell
containing at least one instance whose subject holds SINK is cleared
entirely (the SINK instance itself and everything stacked with it, all other
cells untouched), the sinking pass never changes the `won`/`lost` flags, and
`step` applies sinking after the win/lose check, so a win set in the same
step survives a simultaneous sink. -/
theorem C8_sink_clears_cells :
    (∀ (s : GameState) (x y : Int),
        (handleSinking s).cells x y =
            (if cellSunk s x y = true then [] else s.cells x y)
          ∧ (handleSinking s).won = s.won ∧ (handleSinking s).lost = s.lost)
      ∧ ∀ (g : GameState) (a : String),
          step g a =
              handleSinking (checkWinLose (applyTransformations (updateRules
                (movePhase { g with steps := g.steps + 1 } a))))
            ∧ (step g a).won =
                (checkWinLose (applyTransformations (updateRules
                  (movePhase { g with steps := g.steps + 1 } a)))).won := by
  constructor
  · intro s x y
    refine ⟨handleSinking_cells s x y, ?_, ?_⟩
    · exact (eqExceptCells_handleSinking s).2.2.2.2.2.1
    · exact (eqExceptCells_handleSinking s).2.2.2.2.2.2.1
  · intro g a
    exact ⟨rfl, (eqExceptCells_handleSinking _).2.2.2.2.2.1⟩

/-- Claim C9 (corrected), counterexample: `place_object` (and equally
`remove_object`) does not report out-of-bounds failure through a boolean
return value: the Python methods have no `return` statement, so the call
evaluates to `None` (modelled by the `Option Bool` channel being `none`),
refuting the claim that each of the three operations reports failure via a
boolean return. -/
theorem C9_counterexample :
    (placeObjectRet (initGrid 2 2) babaI 99 0).1 = initGrid 2 2
      ∧ (¬ ∃ b : Bool, (placeObjectRet (initGrid 2 2) babaI 99 0).2 = some b)
      ∧ (¬ ∃ b : Bool, (removeObjectRet (initGrid 2 2) babaI 99 0).2 = some b) := by
  refine ⟨?_, by decide, by decide⟩
  show placeObject (initGrid 2 2) babaI 99 0 = initGrid 2 2
  unfold placeObject
  rw [if_neg (by decide)]

/-- Claim C9 (corrected), amended: for every out-of-bounds target
coordinate, `place_object`, `remove_object` and `move_object` leave the grid
unchanged and raise no exception; `move_object` reports the failure by
returning `False`, while `place_object` and `remove_object` return `None`
(no boolean failure indication). -/
theorem C9_oob_silent_noop (s : GameState) (o : Obj) (fx fy x y : Int)
    (h : ¬ inBounds s x y) :
    placeObjectRet s o x y = (s, none)
      ∧ removeObjectRet s o x y = (s, none)
      ∧ moveObject s o fx fy x y = (s, false) := by
  refine ⟨?_, ?_, ?_⟩
  · show (placeObject s o x y, (none : Option Bool)) = (s, none)
    unfold placeObject
    rw [if_neg h]
  · show (removeObject s o x y, (none : Option Bool)) = (s, none)
    unfold removeObject
    rw [if_neg h]
  · unfold moveObject
    rw [if_neg h]

/-- Witness for C9_oob_silent_noop at a concrete out-of-bounds input. -/
theorem C9_oob_silent_noop_witness :
    ¬ inBounds (initGrid 2 2) (-1) 0
      ∧ moveObject (initGrid 2 2) babaI 0 0 (-1) 0 = (initGrid 2 2, false) := by
  have h : ¬ inBounds (initGrid 2 2) (-1) 0 := by decide
  exact ⟨h, (C9_oob_silent_noop (initGrid 2 2) babaI 0 0 (-1) 0 h).2.2⟩

/-- Claim C2 (corrected), counterexample: placing two distinct instances of
the same object type at one in-bounds cell does not store both.  Cells are
Python sets and `Object.__eq__`/`__hash__` compare `type_id` only, so the
second `add` is a no-op: after placing `rockI` and then the distinct
same-type instance `rockB` at `(0,0)`, the cell holds only the first
instance — not two. -/
theorem C2_counterexample :
    sDup.cells 0 0 = [rockI]
      ∧ ¬ rockB ∈ sDup.cells 0 0
      ∧ ¬ (sDup.cells 0 0).length = 2 := by
  refine ⟨by decide, by decide, by decide⟩

/-- Claim C2 (corrected), amended: cells deduplicate by `type_id`.  Placing
an instance whose type is already present at the cell leaves the grid
entirely unchanged (the underlying `set.add` is a no-op under
`Object.__eq__`), so a cell never holds two instances of the same type. -/
theorem C2_place_dedups (s : GameState) (o o' : Obj) (x y : Int)
    (hmem : o ∈ s.cells x y) (hty : o'.type_id = o.type_id) :
    placeObject s o' x y = s := by
  unfold placeObject
  split
  · have hadd : addObj (s.cells x y) o' = s.cells x y := by
      unfold addObj
      rw [if_pos (List.any_eq_true.mpr ⟨o, hmem, by simp [hty]⟩)]
    have hfun : (fun a b =>
        if a = x ∧ b = y then addObj (s.cells x y) o' else s.cells a b) = s.cells := by
      funext a b
      by_cases hab : a = x ∧ b = y
      · rw [if_pos hab, hadd, hab.1, hab.2]
      · rw [if_neg hab]
    rw [hfun]
  · rfl

/-- Witness for C2_place_dedups at a concrete input. -/
theorem C2_place_dedups_witness :
    rockI ∈ (placeObject (initGrid 1 1) rockI 0 0).cells 0 0
      ∧ rockB.type_id = rockI.type_id
      ∧ placeObject (placeObject (initGrid 1 1) rockI 0 0) rockB 0 0
          = placeObject (initGrid 1 1) rockI 0 0 := by
  refine ⟨by decide, by decide,
    C2_place_dedups (placeObject (initGrid 1 1) rockI 0 0) rockI rockB 0 0
      (by decide) (by decide)⟩

/-- Claim C10 (confirmed): the win check counts only co-located instances
whose `type_id` differs from the YOU instance's, because `other_obj !=
you_obj` uses `Object.__eq__`, which compares `type_id`s.  `won` becomes
true iff it already was, or some live instance of a YOU subject shares its
cell with an instance of a different `type_id` whose upper-cased name is a
WIN subject; in particular an instance whose own type is simultaneously YOU
and WIN never sets `won` by itself. -/
theorem C10_win_requires_other_type (s : GameState) :
    (checkWinLose s).won = true ↔
      s.won = true
        ∨ (¬ youObjects s.properties = []
            ∧ ∃ ynm ∈ youObjects s.properties, ∃ q ∈ findObjects s ynm,
                ∃ other ∈ getObjectsAt s q.2.1 q.2.2,
                  ¬ other.type_id = q.1.type_id
                    ∧ strUpper other.name ∈ winObjects s.properties) := by
  unfold checkWinLose
  by_cases hempty : (youObjects s.properties).isEmpty = true
  · rw [if_pos hempty]
    have he : youObjects s.properties = [] := List.isEmpty_iff.mp hempty
    simp [he]
  · rw [if_neg hempty]
    have hne : ¬ youObjects s.properties = [] := fun hc => hempty (by simp [hc])
    by_cases hw : winFound s = true
    · rw [if_pos hw]
      exact ⟨fun _ => Or.inr ⟨hne, winFound_iff.mp hw⟩, fun _ => rfl⟩
    · rw [if_neg hw]
      constructor
      · exact Or.inl
      · rintro (h | ⟨-, hex⟩)
        · exact h
        · exact absurd (winFound_iff.mpr hex) hw

/-- Claim C4 (confirmed): for every grid whose rule tables are in sync with
its contents and assign the YOU property to no subject
(`get_you_objects()` empty), `step(action)` for any action sets `lost` to
true, and the win condition is not evaluated in that branch (`won` is left
exactly as it was). -/
theorem C4_no_you_loses (s : GameState) (a : String)
    (hsync : rulesInSync s) (hyou : youObjects s.properties = []) :
    (step s a).lost = true ∧ (step s a).won = s.won := by
  unfold step
  have hyou1 : youObjects ({ s with steps := s.steps + 1 } : GameState).properties = [] := hyou
  have hsync1 : rulesInSync { s with steps := s.steps + 1 } := hsync
  rw [movePhase_of_no_you a hyou1, updateRules_of_sync hsync1]
  have haec := eqExceptCells_applyTransformations ({ s with steps := s.steps + 1 } : GameState)
  have hyou2 : youObjects (applyTransformations { s with steps := s.steps + 1 }).properties = [] := by
    rw [haec.2.2.2.1]
    exact hyou1
  rw [checkWinLose_of_no_you hyou2]
  constructor
  · rw [(eqExceptCells_handleSinking _).2.2.2.2.2.2.1]
  · rw [(eqExceptCells_handleSinking _).2.2.2.2.2.1]
    exact haec.2.2.2.2.2.1

/-- Witness for C4_no_you_loses: an empty 2x2 grid (no rules at all) loses
on any step. -/
theorem C4_no_you_loses_witness :
    youObjects (initGrid 2 2).properties = []
      ∧ (step (initGrid 2 2) "right").lost = true := by
  exact ⟨by decide,
    (C4_no_you_loses (initGrid 2 2) "right" ⟨rfl, rfl, rfl⟩ (by decide)).1⟩

theorem find?_congr_mem {α : Type} {l : List α} {p q : α → Bool}
    (h : ∀ a ∈ l, p a = q a) : l.find? p = l.find? q := by
  induction l with
  | nil => rfl
  | cons a l ih =>
    have ha := h a (List.mem_cons_self a l)
    cases hq : q a with
    | true =>
      rw [List.find?_cons_of_pos _ (ha.trans hq), List.find?_cons_of_pos _ hq]
    | false =>
      rw [List.find?_cons_of_neg _ (by rw [ha, hq]; exact Bool.false_ne_true),
        List.find?_cons_of_neg _ (by rw [hq]; exact Bool.false_ne_true)]
      exact ih (fun a ha => h a (List.mem_cons_of_mem _ ha))

/-- Claim C6 (confirmed): for every rule list handed to `update_rules`
(rules carry the verb `"IS"` by the specification's own data model, stated
here as a hypothesis), the recomputed property table maps a subject to
exactly the properties contributed by rules whose complement parses as a
`Property` enum value, and the transformation table maps a subject to a
complement iff some rule for that subject has a complement that does not
parse as a `Property`, the last such rule in list order determining the
recorded complement (`reverse.find?` returns precisely the last match). -/
theorem C6_table_recompute (rules : List Rule) (subj : String) (p : GProp)
    (hverb : ∀ r ∈ rules, r.verb = "IS") :
    (p ∈ tableProps (computeProperties rules) subj ↔
        ∃ r ∈ rules, r.subject = subj ∧ parseProp r.complement = some p)
      ∧ dictGet (computeTransformations rules) subj =
          (rules.reverse.find? (fun r => transRuleFor subj r)).map
            (fun r => r.complement) := by
  constructor
  · rw [computeProperties, mem_tableProps_foldl]
    simp only [tableProps, dictGet_nil, Option.getD_none, List.not_mem_nil,
      false_or]
    constructor
    · rintro ⟨r, hr, -, h2, h3⟩
      exact ⟨r, hr, h2, h3⟩
    · rintro ⟨r, hr, h2, h3⟩
      exact ⟨r, hr, hverb r hr, h2, h3⟩
  · rw [computeTransformations, dictGet_foldl_addTransRule]
    have hpq : rules.reverse.find? (fun r =>
          r.verb == "IS" && r.subject == subj && (parseProp r.complement).isNone)
        = rules.reverse.find? (fun r => transRuleFor subj r) := by
      apply find?_congr_mem
      intro r hr
      have hv : r.verb = "IS" := hverb r (List.mem_reverse.mp hr)
      unfold transRuleFor
      rw [beq_iff_eq.mpr hv, Bool.true_and]
    rw [hpq]
    cases hf : rules.reverse.find? (fun r => transRuleFor subj r) with
    | none => rfl
    | some r => rfl

/-- Witness for C6_table_recompute on a concrete rule list with one property
rule and two transformation rules for the same subject. -/
theorem C6_table_recompute_witness :
    (∀ r ∈ myRules, r.verb = "IS")
      ∧ (GProp.YOU ∈ tableProps (computeProperties myRules) "BABA" ↔
          ∃ r ∈ myRules, r.subject = "BABA"
            ∧ parseProp r.complement = some GProp.YOU)
      ∧ dictGet (computeTransformations myRules) "ROCK" =
          (myRules.reverse.find? (fun r => transRuleFor "ROCK" r)).map
            (fun r => r.complement) := by
  exact ⟨by decide, (C6_table_recompute myRules "BABA" GProp.YOU (by decide)).1,
    (C6_table_recompute myRules "ROCK" GProp.YOU (by decide)).2⟩

/-- Claim C1 (corrected), amended: a `_try_move` attempt that fails because
the target cell is out of bounds, or because some instance at the target
holds STOP, returns failure with the grid completely unchanged (these checks
run before any mutation).  When instead a recursive push in the chain fails,
the attempt still returns failure but instances already pushed by earlier
successful recursive pushes remain moved (the eager-side-effect gap noted in
spec section 9); see the counterexample. -/
theorem C1_fail_before_mutation (s : GameState) (o : Obj) (fx fy tx ty : Int)
    (h : ¬ inBounds s tx ty
        ∨ anyStop s.properties (getObjectsAt s tx ty) = true) :
    tryMove s o fx fy tx ty = (s, false) := by
  unfold tryMove
  rw [show s.width + s.height + 1 = Nat.succ (s.width + s.height) from rfl]
  rw [tryMoveFuel]
  rcases h with h | h
  · rw [if_pos h]
  · have hb : inBounds s tx ty := by
      by_contra hnb
      unfold getObjectsAt at h
      rw [if_neg hnb] at h
      simp [anyStop] at h
    rw [if_neg (not_not_intro hb), if_pos h]

/-- Witness for C1_fail_before_mutation: pushing into the STOP-tagged skull
of `sPush` fails without moving anything. -/
theorem C1_fail_before_mutation_witness :
    anyStop sPush.properties (getObjectsAt sPush 3 4) = true
      ∧ tryMove sPush babaI 2 4 3 4 = (sPush, false) := by
  exact ⟨by decide,
    C1_fail_before_mutation sPush babaI 2 4 3 4 (Or.inr (by decide))⟩

/-- Claim C1 (corrected), counterexample: on `sPush` (rules `ROCK IS PUSH`,
`WALL IS PUSH`, `SKULL IS STOP`, `BABA IS YOU`; `rock` and `wall` stacked at
`(1,4)`, a STOP-holding `skull` at `(3,4)`), the attempt to move the `baba`
from `(0,4)` onto `(1,4)` fails — the second push in the chain (the `wall`)
cannot advance because the `rock` already pushed ahead of it is blocked by
the skull — yet the previously-processed push target, the `rock`, has moved
from `(1,4)` to the formerly empty `(2,4)`: a failing `_try_move` does not
leave the grid contents unchanged. -/
theorem C1_counterexample :
    (tryMove sPush babaI 0 4 1 4).2 = false
      ∧ sPush.cells 2 4 = []
      ∧ (tryMove sPush babaI 0 4 1 4).1.cells 2 4 = [rockI] := by
  refine ⟨by decide, by decide, by decide⟩

/-- Claim C3 (corrected), amended: for every grid whose rule tables are in
sync with its contents and whose transformation table is empty, if before
the step some live instance of a YOU-tagged subject shares its cell with a
different-type instance whose upper-cased name is a WIN-tagged subject,
then `step("wait")` returns with `won = true`.  (The original claim's "for
any action" fails because a movement action can carry the YOU instance off
the WIN instance before the win check runs — see the counterexample — and
an active transformation can replace the YOU instance first.) -/
theorem C3_overlap_wins (s : GameState) (hsync : rulesInSync s)
    (hnt : s.transformations = [])
    (hwin : ∃ ynm ∈ youObjects s.properties, ∃ q ∈ findObjects s ynm,
        ∃ other ∈ getObjectsAt s q.2.1 q.2.2,
          ¬ other.type_id = q.1.type_id
            ∧ strUpper other.name ∈ winObjects s.properties) :
    (step s "wait").won = true := by
  unfold step
  rw [movePhase_wait]
  have hsync1 : rulesInSync { s with steps := s.steps + 1 } := hsync
  rw [updateRules_of_sync hsync1]
  have hnt1 : ({ s with steps := s.steps + 1 } : GameState).transformations = [] := hnt
  rw [applyTransformations_of_empty hnt1]
  have hwin1 : ∃ ynm ∈ youObjects ({ s with steps := s.steps + 1 } : GameState).properties,
      ∃ q ∈ findObjects { s with steps := s.steps + 1 } ynm,
        ∃ other ∈ getObjectsAt { s with steps := s.steps + 1 } q.2.1 q.2.2,
          ¬ other.type_id = q.1.type_id
            ∧ strUpper other.name ∈
                winObjects ({ s with steps := s.steps + 1 } : GameState).properties := hwin
  have hne : ¬ (youObjects ({ s with steps := s.steps + 1 } : GameState).properties).isEmpty = true := by
    rcases hwin1 with ⟨ynm, hy, -⟩
    intro hc
    rw [List.isEmpty_iff.mp hc] at hy
    exact List.not_mem_nil ynm hy
  rw [checkWinLose_won_of hne (winFound_iff.mpr hwin1)]
  exact (eqExceptCells_handleSinking _).2.2.2.2.2.1

/-- Witness for C3_overlap_wins: on `sWin` (`BABA IS YOU`, `FLAG IS WIN`,
`baba` standing on `flag` at `(0,2)`), `step("wait")` wins. -/
theorem C3_overlap_wins_witness :
    sWin.transformations = []
      ∧ "BABA" ∈ youObjects sWin.properties
      ∧ (babaI, 0, 2) ∈ findObjects sWin "BABA"
      ∧ flagI ∈ getObjectsAt sWin 0 2
      ∧ strUpper flagI.name ∈ winObjects sWin.properties
      ∧ (step sWin "wait").won = true := by
  refine ⟨by decide, by decide, by decide, by decide, by decide, ?_⟩
  exact C3_overlap_wins sWin ⟨rfl, rfl, rfl⟩ (by decide)
    ⟨"BABA", by decide, (babaI, 0, 2), by decide, flagI, by decide,
      by decide, by decide⟩

/-- Claim C3 (corrected), counterexample: on `sWin` the precondition holds —
the YOU-tagged `baba` shares cell `(0,2)` with the WIN-tagged `flag` before
the step — yet `step("right")` returns `won = false`: the movement phase
runs first and carries the `baba` to the empty cell `(1,2)`, so the win
check no longer sees an overlap.  The claim's "for any action" is refuted. -/
theorem C3_counterexample :
    ("BABA" ∈ youObjects sWin.properties
        ∧ (babaI, 0, 2) ∈ findObjects sWin "BABA"
        ∧ flagI ∈ getObjectsAt sWin 0 2
        ∧ ¬ flagI.type_id = babaI.type_id
        ∧ strUpper flagI.name ∈ winObjects sWin.properties)
      ∧ (step sWin "right").won = false := by
  refine ⟨⟨by decide, by decide, by decide, by decide, by decide⟩, by decide⟩

theorem filter_range_lt (n m : Nat) :
    (List.range n).filter (fun x => decide (x < m)) = List.range (min n m) := by
  induction n with
  | zero => simp
  | succ n ih =>
    rw [List.range_succ, List.filter_append, ih]
    by_cases h : n < m
    · have h1 : min n m = n := by omega
      have h2 : min (n + 1) m = n + 1 := by omega
      rw [h1, h2, List.range_succ]
      simp [h]
    · have h1 : min n m = m := by omega
      have h2 : min (n + 1) m = m := by omega
      rw [h1, h2]
      simp [h]

theorem filter_intRange_le3 (w : Nat) :
    (intRange w).filter (fun x => decide (x ≤ (w : Int) - 3)) =
      intRange (w - 2) := by
  unfold intRange
  rw [List.filter_map]
  congr 1
  have hpt : ∀ a ∈ List.range w,
      ((fun x => decide (x ≤ (w : Int) - 3)) ∘ (fun i : Nat => (i : Int))) a
        = decide (a < w - 2) := by
    intro a ha
    simp only [Function.comp_apply]
    exact decide_eq_decide.mpr (by omega)
  rw [List.filter_congr hpt, filter_range_lt]
  congr 1
  omega

theorem specWindowRule_eq (cells : Int → Int → List Obj)
    (x1 y1 x2 y2 x3 y3 dx dy : Int)
    (h2x : x2 = x1 + dx) (h2y : y2 = y1 + dy)
    (h3x : x3 = x1 + 2 * dx) (h3y : y3 = y1 + 2 * dy) :
    specWindowRule cells x1 y1 x2 y2 x3 y3 = checkRuleAt cells x1 y1 dx dy := by
  subst h2x
  subst h2y
  subst h3x
  subst h3y
  unfold specWindowRule checkRuleAt getTextObject
  cases (cells x1 y1).find? (fun o => o.is_text) with
  | none => rfl
  | some a =>
    cases (cells (x1 + dx) (y1 + dy)).find? (fun o => o.is_text) with
    | none =>
      obtain ⟨an, ati, atx, anoun, averb, aprop⟩ := a
      cases anoun with
      | none => rfl
      | some n => by_cases hn : n = "" <;> simp [hn]
    | some b =>
      cases (cells (x1 + 2 * dx) (y1 + 2 * dy)).find? (fun o => o.is_text) with
      | none =>
        obtain ⟨an, ati, atx, anoun, averb, aprop⟩ := a
        cases anoun with
        | none => rfl
        | some n => by_cases hn : n = "" <;> simp [hn]
      | some c =>
        obtain ⟨an, ati, atx, anoun, averb, aprop⟩ := a
        obtain ⟨bn, bti, btx, bnoun, bverb, bprop⟩ := b
        obtain ⟨cn, cti, ctx, cnoun, cverb, cprop⟩ := c
        cases anoun with
        | none => rfl
        | some n =>
          cases bverb with
          | none => by_cases hn : n = "" <;> simp [hn]
          | some v =>
            by_cases hn : n = ""
            · simp [hn]
            · by_cases hve : v = ""
              · simp [hn, hve]
              · by_cases hlow : strLower v = "is"
                · cases cprop with
                  | some p => simp [hn, hve, hlow]
                  | none =>
                    cases cnoun with
                    | none => simp [hn, hve, hlow]
                    | some n3 =>
                      by_cases hn3 : n3 = "" <;> simp [hn, hve, hlow, hn3]
                · simp [hn, hve, hlow]

/-- Claim C5 (confirmed): `extract_rules` returns exactly the ordered
sequence produced by the specification's reference scan — a row-major
horizontal pass over windows starting at `x ≤ width-3`, then a row-major
vertical pass over windows starting at `y ≤ height-3`, one rule per valid
window, duplicates retained (`extractRulesSpec` is written from the
specification's words and proved equal to the source's `extractRules`). -/
theorem C5_extract_eq_reference_scan (w h : Nat)
    (cells : Int → Int → List Obj) :
    extractRulesSpec w h cells = extractRules w h cells := by
  unfold extractRulesSpec extractRules
  congr 1
  · congr 1
    funext y
    rw [filter_intRange_le3 w]
    congr 1
    funext x
    exact specWindowRule_eq cells x y (x + 1) y (x + 2) y 1 0
      rfl (by ring) (by ring) (by ring)
  · rw [filter_intRange_le3 h]
    congr 1
    funext y
    congr 1
    funext x
    exact specWindowRule_eq cells x y x (y + 1) x (y + 2) 0 1
      (by ring) rfl (by ring) (by ring)

/-- Claim C7 (corrected), amended: consider a cell in which at most one
instance has an effective transformation (a table target resolving in the
registry) and whose instances have pairwise distinct `type_id`s (the set
invariant).  Then during `_apply_transformations`: every instance whose name
has no transformation target, or whose target is not present in the
registry, stays in place; text instances stay whenever their (upper-cased)
name is not a key of the table — which the `<base>_text` naming convention
guarantees in this program, the code itself never tests `is_text`; and an
instance with a registered target is replaced: afterwards the cell holds an
instance of the target's type, and (when the target type differs) no
instance of the transformed instance's type remains.  Without the
at-most-one restriction the per-instance statement is false — two co-located
instances transforming simultaneously can destroy each other's clones (see
the counterexample). -/
theorem C7_transform_cell (s : GameState) (x y : Int)
    (hb : inBounds s x y)
    (hdedup : ((s.cells x y).map (fun o => o.type_id)).Nodup)
    (hone : (transOpsAt s x y).length ≤ 1) :
    (∀ o ∈ s.cells x y, transOpOf s o = none →
        o ∈ (applyTransformations s).cells x y)
      ∧ (∀ o ∈ s.cells x y, o.is_text = true →
          getTransformation s.transformations o.name = none →
          o ∈ (applyTransformations s).cells x y)
      ∧ (∀ o ∈ s.cells x y, ∀ tgt tmpl,
          getTransformation s.transformations o.name = some tgt →
          registryGet tgt = some tmpl →
          (∃ o' ∈ (applyTransformations s).cells x y,
              o'.type_id = tmpl.type_id)
            ∧ (¬ o.type_id = tmpl.type_id →
                ∀ o' ∈ (applyTransformations s).cells x y,
                  ¬ o'.type_id = o.type_id)) := by
  have hcell : (applyTransformations s).cells x y =
      ((transOpsAt s x y).map (fun q => (⟨q.1, x, y, q.2⟩ : TOp))).foldl
        (fun c op => addObj (removeObjCell c op.obj) op.tmpl) (s.cells x y) := by
    unfold applyTransformations
    rw [cells_foldl_applyTOp _ _ _ _ hb, filter_collectTransforms s x y hb]
  cases hops : transOpsAt s x y with
  | nil =>
    rw [hops] at hcell
    simp only [List.map_nil, List.foldl_nil] at hcell
    refine ⟨?_, ?_, ?_⟩
    · intro o ho _
      rw [hcell]
      exact ho
    · intro o ho _ _
      rw [hcell]
      exact ho
    · intro o ho tgt tmpl hg hr
      have : (o, tmpl) ∈ transOpsAt s x y := mem_transOpsAt.mpr ⟨ho, tgt, hg, hr⟩
      rw [hops] at this
      exact absurd this (List.not_mem_nil _)
  | cons q rest =>
    have hrest : rest = [] := by
      rw [hops] at hone
      simp only [List.length_cons] at hone
      exact List.length_eq_zero.mp (by omega)
    subst hrest
    rw [hops] at hcell
    simp only [List.map_cons, List.map_nil, List.foldl_cons, List.foldl_nil]
      at hcell
    have hqmem : (q.1, q.2) ∈ transOpsAt s x y := by
      rw [hops, Prod.mk.eta]
      exact List.mem_singleton_self q
    obtain ⟨hq1mem, tgtq, hgq, hrq⟩ := mem_transOpsAt.mp hqmem
    refine ⟨?_, ?_, ?_⟩
    · intro o ho hnone
      rw [hcell]
      apply mem_addObj_of_mem
      rw [mem_removeObjCell]
      refine ⟨ho, ?_⟩
      have hne : ¬ o = q.1 := by
        intro hc
        rw [hc] at hnone
        unfold transOpOf at hnone
        rw [hgq, Option.some_bind, hrq] at hnone
        exact Option.noConfusion hnone
      exact fun hty => hne (List.inj_on_of_nodup_map hdedup ho hq1mem hty)
    · intro o ho _ hgnone
      rw [hcell]
      apply mem_addObj_of_mem
      rw [mem_removeObjCell]
      refine ⟨ho, ?_⟩
      have hne : ¬ o = q.1 := by
        intro hc
        rw [hc] at hgnone
        rw [hgq] at hgnone
        exact Option.noConfusion hgnone
      exact fun hty => hne (List.inj_on_of_nodup_map hdedup ho hq1mem hty)
    · intro o ho tgt tmpl hg hr
      have hmem : (o, tmpl) ∈ transOpsAt s x y := mem_transOpsAt.mpr ⟨ho, tgt, hg, hr⟩
      rw [hops] at hmem
      have hq : q = (o, tmpl) := (List.mem_singleton.mp hmem).symm
      subst hq
      constructor
      · rw [hcell]
        rcases exists_type_mem_addObj
            (removeObjCell (s.cells x y) (o, tmpl).1) (o, tmpl).2
          with ⟨e, he, hety⟩
        exact ⟨e, he, hety⟩
      · intro hne o' ho'
        rw [hcell] at ho'
        rcases mem_addObj ho' with hmo | hmo
        · rw [mem_removeObjCell] at hmo
          exact hmo.2
        · rw [hmo]
          exact fun hc => hne hc.symm

/-- Witness for C7_transform_cell: on `sOne` (`ROCK IS BABA` with a single
`rock` at `(0,1)`) the rock is removed and a `baba`-typed clone appears. -/
theorem C7_transform_cell_witness :
    inBounds sOne 0 1
      ∧ (∃ o' ∈ (applyTransformations sOne).cells 0 1,
          o'.type_id = babaI.type_id)
      ∧ (∀ o' ∈ (applyTransformations sOne).cells 0 1,
          ¬ o'.type_id = rockI.type_id) := by
  have h := (C7_transform_cell sOne 0 1 (by decide) (by decide)
      (by decide)).2.2 rockI (by decide) "BABA" babaI (by decide) (by decide)
  exact ⟨by decide, h.1, h.2 (by decide)⟩

/-- Claim C7 (corrected), counterexample: on `sSwap` (`ROCK IS BABA` and
`BABA IS ROCK` both active, a `rock` and a `baba` stacked at `(0,2)`), the
`rock` has the registered transformation target `BABA`, yet after
`_apply_transformations` the cell still holds a rock-typed instance and no
baba-typed instance: the rock's baba clone was suppressed by the set-add
(a baba was still present) and then destroyed by the baba's own
transformation.  So it is not true that every non-text instance with a
registered target "is removed and a freshly instantiated clone of the
target type is placed at the same position". -/
theorem C7_counterexample :
    rockI.is_text = false
      ∧ rockI ∈ sSwap.cells 0 2
      ∧ getTransformation sSwap.transformations rockI.name = some "BABA"
      ∧ registryGet "BABA" = some babaI
      ∧ (applyTransformations sSwap).cells 0 2 = [rockI] := by
  refine ⟨rfl, by decide, by decide, by decide, by decide⟩
